import Mathlib

/-!
Shallow embedding of the `blogs-platform` NEAR contract
(`src/contract/src/contract.ts` and `src/contract/src/models.ts`).

The contract state holds four collections (moderators, authors, denylist,
blog posts).  `UnorderedSet` is modelled as an insertion-ordered duplicate-free
list, `UnorderedMap` as an insertion-ordered association list; both use the
swap-remove behaviour of the SDK on removal.  Every exposed call is a function
from an environment (signer, current account, attached deposit, random seed,
block timestamp) and a pre-state to a pair of an `Except`-result and a
post-state; a failed `assert` returns the error together with the state as it
was at the failure point, which models the fail-fast abort of the runtime.

Update patches arrive as deserialized JSON objects, so a patch is modelled as
an association list of string keys and values: `objKeys` models
`Object.keys` (first-occurrence order, no duplicates) and `objGet` models
property access (last binding wins), and `truthy` models JS truthiness of an
optional string property (absent and empty string are falsy).
-/

namespace BlogsPlatform

abbrev AccountId := String

/-- A deserialized JSON patch object: keys paired with string values. -/
abbrev Patch := List (String × String)

/-- Property access on a JSON object: the last binding for the key wins. -/
def objGet : Patch → String → Option String
  | [], _ => none
  | e :: rest, key =>
    match objGet rest key with
    | some w => some w
    | none => if e.1 == key then some e.2 else none

/-- Helper for `objKeys`: keys not yet seen, in first-occurrence order. -/
def keysAux (seen : List String) : Patch → List String
  | [] => []
  | e :: rest =>
    if seen.contains e.1 then keysAux seen rest
    else e.1 :: keysAux (e.1 :: seen) rest

/-- The JS `Object.keys`: key list in first-occurrence order, duplicate-free. -/
def objKeys (p : Patch) : List String := keysAux [] p

/-- JS truthiness of an optional string property: `undefined` and `""` are falsy. -/
def truthy : Option String → Bool
  | none => false
  | some v => v != ""

/-- The errors raised by the contract's `assert` calls. -/
inductive CallError where
  | oneYocto
  | denylisted
  | notAuthor
  | modPermission
  | updatePermission
  | postNotFound
  | removePermission
deriving DecidableEq, Repr

/-- The assert message attached to each error in the source. -/
def CallError.message : CallError → String
  | .oneYocto => "You need to deposit exactly 1yoctoNEAR!"
  | .denylisted => "This account is in the denylist!"
  | .notAuthor => "You are not registered as an author, please register!"
  | .modPermission => "You do not have permission to perform this action!"
  | .updatePermission => "You do not have permission to perform this action!"
  | .postNotFound => "The requested blog post doesn\x27t exist!"
  | .removePermission => "You don\x27t have permission to perform this action!"

/-- The `BlogPost` entity of `models.ts`.  Timestamps are nanosecond counts. -/
structure BlogPost where
  title : String
  ipfs_cid : String
  thumnbnail_cid : String
  id : String
  author_id : AccountId
  created_at : Nat
  last_updated_at : Nat
deriving DecidableEq, Repr, Inhabited

/-- `BlogPost.reconstruct`: rebuilds a post field by field from stored data. -/
def BlogPost.reconstruct (b : BlogPost) : BlogPost :=
  { title := b.title
    ipfs_cid := b.ipfs_cid
    thumnbnail_cid := b.thumnbnail_cid
    id := b.id
    author_id := b.author_id
    created_at := b.created_at
    last_updated_at := b.last_updated_at }

/-- The recognized mutable field names in `BlogPost.update`. -/
def recognizedKeys : List String := ["author_id", "title", "ipfs_cid", "thumnbnail_cid"]

/-- The dynamic field write `this[key] = v` for the four mutable fields. -/
def setField (b : BlogPost) (key v : String) : BlogPost :=
  if key == "author_id" then { b with author_id := v }
  else if key == "title" then { b with title := v }
  else if key == "ipfs_cid" then { b with ipfs_cid := v }
  else if key == "thumnbnail_cid" then { b with thumnbnail_cid := v }
  else b

/-- The dynamic field read `b[key]` for the four mutable fields. -/
def getField (b : BlogPost) (key : String) : String :=
  if key == "author_id" then b.author_id
  else if key == "title" then b.title
  else if key == "ipfs_cid" then b.ipfs_cid
  else if key == "thumnbnail_cid" then b.thumnbnail_cid
  else ""

/-- The `keysToUpdate.forEach((key) => (this[key] = updatedBlog[key]))` loop. -/
def applyKeys (patch : Patch) : List String → BlogPost → BlogPost
  | [], b => b
  | k :: ks, b => applyKeys patch ks (setField b k ((objGet patch k).getD ""))

/-- The validation of a patch as a whole in `BlogPost.update`:
non-empty and every key recognized. -/
def patchAccepted (patch : Patch) : Bool :=
  decide (0 < (objKeys patch).length) &&
    (objKeys patch).all (fun k => recognizedKeys.contains k)

/-- `BlogPost.update`: asserts the signer owns the post, then applies the
patch if and only if it is accepted as a whole (silent no-op otherwise). -/
def BlogPost.update (signer : AccountId) (b : BlogPost) (patch : Patch) :
    Except CallError BlogPost :=
  if signer == b.author_id then
    if patchAccepted patch then .ok (applyKeys patch (objKeys patch) b)
    else .ok b
  else .error .updatePermission

/-- The host environment of a single call. -/
structure Env where
  signerAccountId : AccountId
  currentAccountId : AccountId
  attachedDeposit : Nat
  randomSeed : String
  blockTimestamp : Nat
deriving DecidableEq, Repr

/-- The `BlogPost` constructor called with only the three content arguments:
the defaulted parameters take the call's random seed, signer and block
timestamp from the environment. -/
def BlogPost.make (env : Env) (title ipfs_cid thumnbnail_cid : String) : BlogPost :=
  { title := title
    ipfs_cid := ipfs_cid
    thumnbnail_cid := thumnbnail_cid
    id := env.randomSeed
    author_id := env.signerAccountId
    created_at := env.blockTimestamp
    last_updated_at := env.blockTimestamp }

/-- `UnorderedSet.set`: insert at the end if not already present. -/
def setInsert (l : List AccountId) (v : AccountId) : List AccountId :=
  if l.contains v then l else l ++ [v]

/-- `UnorderedSet.extend`: insert each element in order. -/
def setExtend (l : List AccountId) (vs : List AccountId) : List AccountId :=
  vs.foldl setInsert l

/-- `UnorderedSet.remove`: swap-remove, moving the last element into the hole. -/
def setRemove (l : List AccountId) (v : AccountId) : List AccountId :=
  match l.findIdx? (fun x => x == v) with
  | none => l
  | some i => (l.set i (l.getLastD "")).dropLast

/-- `UnorderedMap.get`: value of the entry with the given key, if any. -/
def mapGet (m : List (String × BlogPost)) (k : String) : Option BlogPost :=
  match m.find? (fun e => e.1 == k) with
  | some e => some e.2
  | none => none

/-- `UnorderedMap.set`: overwrite in place if the key exists, else append. -/
def mapSet (m : List (String × BlogPost)) (k : String) (v : BlogPost) :
    List (String × BlogPost) :=
  if m.any (fun e => e.1 == k) then
    m.map (fun e => if e.1 == k then (k, v) else e)
  else m ++ [(k, v)]

/-- `UnorderedMap.remove`: swap-remove of the entry with the given key. -/
def mapRemove (m : List (String × BlogPost)) (k : String) :
    List (String × BlogPost) :=
  match m.findIdx? (fun e => e.1 == k) with
  | none => m
  | some i => (m.set i (m.getLastD ("", default))).dropLast

/-- The contract state: the four persistent collections. -/
structure BlogContract where
  moderators : List AccountId
  authors : List AccountId
  denylist : List AccountId
  blog_posts : List (String × BlogPost)
deriving DecidableEq, Repr

namespace BlogContract

/-- `add_moderators`: one-yocto guard, signer denylist guard, owner-or-moderator
permission, denylist guard on every target, then extend the moderators set. -/
def add_moderators (env : Env) (mods : List AccountId) (s : BlogContract) :
    Except CallError Unit × BlogContract :=
  if env.attachedDeposit == 1 then
    if s.denylist.contains env.signerAccountId then (.error .denylisted, s)
    else
      if env.signerAccountId == env.currentAccountId ||
          s.moderators.contains env.signerAccountId then
        if mods.any (fun m => s.denylist.contains m) then (.error .denylisted, s)
        else (.ok (), { s with moderators := setExtend s.moderators mods })
      else (.error .modPermission, s)
  else (.error .oneYocto, s)

/-- `remove_moderators`: one-yocto guard, owner-or-moderator permission,
then remove each listed account from the moderators set. -/
def remove_moderators (env : Env) (mods : List AccountId) (s : BlogContract) :
    Except CallError Unit × BlogContract :=
  if env.attachedDeposit == 1 then
    if env.signerAccountId == env.currentAccountId ||
        s.moderators.contains env.signerAccountId then
      (.ok (), { s with moderators := mods.foldl setRemove s.moderators })
    else (.error .modPermission, s)
  else (.error .oneYocto, s)

/-- `register`: one-yocto guard, signer denylist guard, then add the signer
to the authors set. -/
def register (env : Env) (s : BlogContract) :
    Except CallError Unit × BlogContract :=
  if env.attachedDeposit == 1 then
    if s.denylist.contains env.signerAccountId then (.error .denylisted, s)
    else (.ok (), { s with authors := setInsert s.authors env.signerAccountId })
  else (.error .oneYocto, s)

/-- `get_authors`: paginated view of the authors set. -/
def get_authors (s : BlogContract) (limit start : Option Nat) : List AccountId :=
  ((s.authors.drop (start.getD 0)).take (limit.getD 20))

/-- `create_blog_post`: author guard, then build a post whose id is the
call's random seed and insert it by id (overwriting on id collision). -/
def create_blog_post (env : Env) (title ipfs_cid thumnbnail_cid : String)
    (s : BlogContract) : Except CallError BlogPost × BlogContract :=
  if s.authors.contains env.signerAccountId then
    let blogPost : BlogPost := BlogPost.make env title ipfs_cid thumnbnail_cid
    (.ok blogPost, { s with blog_posts := mapSet s.blog_posts blogPost.id blogPost })
  else (.error .notAuthor, s)

/-- `update_blog_post`: author guard on the signer, existence check, denylist
guard on a truthy transfer target, then the entity's own update and re-store. -/
def update_blog_post (env : Env) (blog_id : String) (update_blog : Patch)
    (s : BlogContract) : Except CallError BlogPost × BlogContract :=
  if s.authors.contains env.signerAccountId then
    match mapGet s.blog_posts blog_id with
    | none => (.error .postNotFound, s)
    | some bp0 =>
      let blogPost := BlogPost.reconstruct bp0
      if truthy (objGet update_blog "author_id") &&
          s.denylist.contains ((objGet update_blog "author_id").getD "") then
        (.error .denylisted, s)
      else
        match BlogPost.update env.signerAccountId blogPost update_blog with
        | .error e => (.error e, s)
        | .ok bp1 =>
          (.ok bp1, { s with blog_posts := mapSet s.blog_posts blog_id bp1 })
  else (.error .notAuthor, s)

/-- `remove_blog_post`: author guard on the signer, existence check, ownership
check, then remove the post from the collection and return it. -/
def remove_blog_post (env : Env) (blog_id : String) (s : BlogContract) :
    Except CallError BlogPost × BlogContract :=
  if s.authors.contains env.signerAccountId then
    match mapGet s.blog_posts blog_id with
    | none => (.error .postNotFound, s)
    | some bp0 =>
      if env.signerAccountId == (BlogPost.reconstruct bp0).author_id then
        (.ok bp0, { s with blog_posts := mapRemove s.blog_posts blog_id })
      else (.error .removePermission, s)
  else (.error .notAuthor, s)

/-- `get_blog_post`: view of a single post by id. -/
def get_blog_post (s : BlogContract) (blog_id : String) : Option BlogPost :=
  (mapGet s.blog_posts blog_id).map BlogPost.reconstruct

/-- The filter callback of `get_blog_posts`: a truthy `author_id` filters by
exact equality, a falsy one lets every post through. -/
def authorFilter (author_id : Option String) (p : BlogPost) : Bool :=
  if truthy author_id then p.author_id == author_id.getD "" else true

/-- `get_blog_posts`: map the collection to its posts, filter by author when
given, then slice `from..from+limit` (defaults: limit 20, from 0). -/
def get_blog_posts (s : BlogContract) (limit start : Option Nat)
    (author_id : Option String) : List BlogPost :=
  (((s.blog_posts.map Prod.snd).filter (authorFilter author_id)).drop
      (start.getD 0)).take (limit.getD 20)

end BlogContract

/-! Concrete sample data used to instantiate the theorems below. -/

/-- A stored post authored by alice. -/
def postP1 : BlogPost :=
  { title := "t1", ipfs_cid := "c1", thumnbnail_cid := "h1", id := "p1",
    author_id := "alice", created_at := 5, last_updated_at := 5 }

/-- A registry with author alice, denylisted bob, and alice's post p1. -/
def sampleState : BlogContract :=
  { moderators := [], authors := ["alice"], denylist := ["bob"],
    blog_posts := [("p1", postP1)] }

/-- A call by alice with a one-yocto deposit. -/
def aliceEnv : Env :=
  { signerAccountId := "alice", currentAccountId := "blog.near",
    attachedDeposit := 1, randomSeed := "seed1", blockTimestamp := 7 }

/-- A call by denylisted bob with no deposit attached. -/
def bobZeroEnv : Env :=
  { signerAccountId := "bob", currentAccountId := "blog.near",
    attachedDeposit := 0, randomSeed := "seed1", blockTimestamp := 7 }

/-- A call by carol (not an author of `sampleState`) with a one-yocto deposit. -/
def carolEnv : Env :=
  { signerAccountId := "carol", currentAccountId := "blog.near",
    attachedDeposit := 1, randomSeed := "seed2", blockTimestamp := 9 }

/-- A registry whose denylist holds the empty string, plus alice's post p1. -/
def nullDenyState : BlogContract :=
  { moderators := [], authors := ["alice"], denylist := ["bob", ""],
    blog_posts := [("p1", postP1)] }

/-- A registry whose only post was transferred to carol, not an author. -/
def transferredState : BlogContract :=
  { moderators := [], authors := ["alice"], denylist := [],
    blog_posts := [("p1", { postP1 with author_id := "carol" })] }

/-- A registry where bob is denylisted yet also author, moderator and
owner of post p1. -/
def bobState : BlogContract :=
  { moderators := ["bob"], authors := ["bob"], denylist := ["bob"],
    blog_posts := [("p1", { postP1 with author_id := "bob" })] }

/-- A call by bob with a one-yocto deposit. -/
def bobOneEnv : Env :=
  { signerAccountId := "bob", currentAccountId := "blog.near",
    attachedDeposit := 1, randomSeed := "seed1", blockTimestamp := 7 }

/-- A registry with author alice and no posts. -/
def emptyState : BlogContract :=
  { moderators := [], authors := ["alice"], denylist := [], blog_posts := [] }

/-- The n-th sample post by alice: id and title both `n`. -/
def alicePost (n : String) : BlogPost :=
  { title := n, ipfs_cid := "c", thumnbnail_cid := "h", id := n,
    author_id := "alice", created_at := 1, last_updated_at := 1 }

/-- A registry holding five posts by alice, created in order p1 .. p5. -/
def fiveState : BlogContract :=
  { moderators := [], authors := ["alice"], denylist := [],
    blog_posts := [("p1", alicePost "p1"), ("p2", alicePost "p2"),
      ("p3", alicePost "p3"), ("p4", alicePost "p4"), ("p5", alicePost "p5")] }

/-! Helper lemmas about the embedded definitions. -/

theorem reconstruct_eq (b : BlogPost) : BlogPost.reconstruct b = b := rfl

theorem mem_keysAux (p : Patch) : ∀ (seen : List String) (k : String),
    k ∈ keysAux seen p ↔ (k ∈ p.map Prod.fst ∧ ¬ k ∈ seen) := by
  induction p with
  | nil => intro seen k; simp [keysAux]
  | cons e rest ih =>
    intro seen k
    by_cases h : e.1 ∈ seen
    · have hc : seen.contains e.1 = true := by simpa using h
      rw [keysAux, if_pos hc]
      simp only [List.map_cons, List.mem_cons, ih]
      constructor
      · rintro ⟨hm, hn⟩; exact ⟨Or.inr hm, hn⟩
      · rintro ⟨hm | hm, hn⟩
        · subst hm; exact absurd h hn
        · exact ⟨hm, hn⟩
    · have hc : ¬ seen.contains e.1 = true := by simpa using h
      rw [keysAux, if_neg hc]
      simp only [List.map_cons, List.mem_cons, ih, List.mem_cons]
      constructor
      · rintro (hk | ⟨hm, hn⟩)
        · subst hk; exact ⟨Or.inl rfl, h⟩
        · push_neg at hn
          exact ⟨Or.inr hm, hn.2⟩
      · rintro ⟨hm | hm, hn⟩
        · exact Or.inl hm
        · by_cases hke : k = e.1
          · exact Or.inl hke
          · exact Or.inr ⟨hm, by simp [hke, hn]⟩

theorem keysAux_nodup (p : Patch) : ∀ seen : List String, (keysAux seen p).Nodup := by
  induction p with
  | nil => intro seen; simp [keysAux]
  | cons e rest ih =>
    intro seen
    by_cases h : e.1 ∈ seen
    · have hc : seen.contains e.1 = true := by simpa using h
      rw [keysAux, if_pos hc]; exact ih seen
    · have hc : ¬ seen.contains e.1 = true := by simpa using h
      rw [keysAux, if_neg hc]
      refine List.nodup_cons.mpr ⟨?_, ih _⟩
      intro hmem
      have := (mem_keysAux rest (e.1 :: seen) e.1).mp hmem
      exact this.2 (List.mem_cons_self _ _)

theorem objKeys_nodup (p : Patch) : (objKeys p).Nodup := keysAux_nodup p []

theorem mem_objKeys (p : Patch) (k : String) :
    k ∈ objKeys p ↔ k ∈ p.map Prod.fst := by
  rw [objKeys, mem_keysAux]; simp

theorem objGet_some_mem {p : Patch} {k v : String} (h : objGet p k = some v) :
    k ∈ objKeys p := by
  rw [mem_objKeys]
  induction p with
  | nil => simp [objGet] at h
  | cons e rest ih =>
    rw [objGet] at h
    simp only [List.map_cons, List.mem_cons]
    cases hg : objGet rest k with
    | some w => exact Or.inr (ih (by rw [hg] at h ⊢; exact h))
    | none =>
      rw [hg] at h
      by_cases he : e.1 == k
      · left; exact (beq_iff_eq.mp he).symm
      · rw [if_neg (by simpa using he)] at h; exact absurd h (by simp)

theorem setField_id (b : BlogPost) (k v : String) : (setField b k v).id = b.id := by
  unfold setField; split_ifs <;> rfl

theorem setField_created_at (b : BlogPost) (k v : String) :
    (setField b k v).created_at = b.created_at := by
  unfold setField; split_ifs <;> rfl

theorem setField_last_updated_at (b : BlogPost) (k v : String) :
    (setField b k v).last_updated_at = b.last_updated_at := by
  unfold setField; split_ifs <;> rfl

theorem getField_setField_self (b : BlogPost) (k v : String)
    (hk : recognizedKeys.contains k = true) :
    getField (setField b k v) k = v := by
  have : k = "author_id" ∨ k = "title" ∨ k = "ipfs_cid" ∨ k = "thumnbnail_cid" := by
    simpa [recognizedKeys] using hk
  rcases this with h | h | h | h <;> subst h <;> rfl

theorem getField_setField_ne (b : BlogPost) (k k2 v : String) (hne : ¬ k = k2) :
    getField (setField b k2 v) k = getField b k := by
  unfold getField setField
  split_ifs <;> simp_all

theorem applyKeys_id (patch : Patch) (ks : List String) (b : BlogPost) :
    (applyKeys patch ks b).id = b.id := by
  induction ks generalizing b with
  | nil => rfl
  | cons k ks ih => rw [applyKeys, ih, setField_id]

theorem applyKeys_created_at (patch : Patch) (ks : List String) (b : BlogPost) :
    (applyKeys patch ks b).created_at = b.created_at := by
  induction ks generalizing b with
  | nil => rfl
  | cons k ks ih => rw [applyKeys, ih, setField_created_at]

theorem applyKeys_last_updated_at (patch : Patch) (ks : List String) (b : BlogPost) :
    (applyKeys patch ks b).last_updated_at = b.last_updated_at := by
  induction ks generalizing b with
  | nil => rfl
  | cons k ks ih => rw [applyKeys, ih, setField_last_updated_at]

theorem applyKeys_getField_not_mem (patch : Patch) (ks : List String) (b : BlogPost)
    (k : String) (hk : ¬ k ∈ ks) :
    getField (applyKeys patch ks b) k = getField b k := by
  induction ks generalizing b with
  | nil => rfl
  | cons k0 ks ih =>
    rw [applyKeys, ih _ (fun h => hk (List.mem_cons_of_mem _ h)),
      getField_setField_ne _ _ _ _ (fun h => hk (by rw [h]; exact List.mem_cons_self _ _))]

theorem applyKeys_getField_mem (patch : Patch) (ks : List String) (b : BlogPost)
    (k : String) (hnd : ks.Nodup) (hk : k ∈ ks)
    (hrec : recognizedKeys.contains k = true) :
    getField (applyKeys patch ks b) k = (objGet patch k).getD "" := by
  induction ks generalizing b with
  | nil => simp at hk
  | cons k0 ks ih =>
    rcases List.mem_cons.mp hk with h | h
    · subst h
      rw [applyKeys,
        applyKeys_getField_not_mem _ _ _ _ (List.nodup_cons.mp hnd).1,
        getField_setField_self _ _ _ hrec]
    · rw [applyKeys]
      exact ih _ (List.nodup_cons.mp hnd).2 h

theorem patchAccepted_iff (patch : Patch) :
    patchAccepted patch = true ↔
      (objKeys patch ≠ [] ∧ ∀ k ∈ objKeys patch, recognizedKeys.contains k = true) := by
  rw [patchAccepted, Bool.and_eq_true, decide_eq_true_iff, List.all_eq_true]
  constructor
  · rintro ⟨h1, h2⟩
    exact ⟨by intro h; rw [h] at h1; simp at h1, h2⟩
  · rintro ⟨h1, h2⟩
    exact ⟨List.length_pos.mpr h1, h2⟩

theorem update_eq_ok {signer : AccountId} {b : BlogPost} (patch : Patch)
    (h : (signer == b.author_id) = true) :
    BlogPost.update signer b patch =
      .ok (if patchAccepted patch then applyKeys patch (objKeys patch) b else b) := by
  rw [BlogPost.update, if_pos h]
  split_ifs with h2 <;> simp [h2]

theorem update_ok_inv {signer : AccountId} {b b1 : BlogPost} {patch : Patch}
    (h : BlogPost.update signer b patch = .ok b1) :
    (signer == b.author_id) = true ∧
      b1 = (if patchAccepted patch then applyKeys patch (objKeys patch) b else b) := by
  by_cases hs : (signer == b.author_id) = true
  · rw [update_eq_ok patch hs] at h
    exact ⟨hs, (Except.ok.inj h).symm⟩
  · rw [BlogPost.update, if_neg hs] at h
    exact absurd h (by simp)

theorem update_blog_post_eq_ok {env : Env} {blog_id : String} {patch : Patch}
    {s : BlogContract} {bp : BlogPost}
    (hA : s.authors.contains env.signerAccountId = true)
    (hg : mapGet s.blog_posts blog_id = some bp)
    (hd : (truthy (objGet patch "author_id") &&
      s.denylist.contains ((objGet patch "author_id").getD "")) = false)
    (hown : (env.signerAccountId == bp.author_id) = true) :
    BlogContract.update_blog_post env blog_id patch s =
      (.ok (if patchAccepted patch then applyKeys patch (objKeys patch) bp else bp),
       { s with blog_posts := mapSet s.blog_posts blog_id (if patchAccepted patch then applyKeys patch (objKeys patch) bp else bp) }) := by
  rw [BlogContract.update_blog_post, if_pos hA, hg]
  simp only [reconstruct_eq]
  rw [if_neg (by rw [hd]; simp), update_eq_ok patch hown]

theorem update_blog_post_ok_inv {env : Env} {blog_id : String} {patch : Patch}
    {s : BlogContract} {p1 : BlogPost}
    (h : (BlogContract.update_blog_post env blog_id patch s).1 = .ok p1) :
    s.authors.contains env.signerAccountId = true ∧
      ∃ bp, mapGet s.blog_posts blog_id = some bp ∧
        (truthy (objGet patch "author_id") &&
          s.denylist.contains ((objGet patch "author_id").getD "")) = false ∧
        (env.signerAccountId == bp.author_id) = true ∧
        p1 = (if patchAccepted patch then applyKeys patch (objKeys patch) bp else bp) := by
  by_cases hA : s.authors.contains env.signerAccountId = true
  · cases hg : mapGet s.blog_posts blog_id with
    | none =>
      rw [BlogContract.update_blog_post, if_pos hA, hg] at h
      exact absurd h (by simp)
    | some bp =>
      by_cases hd : (truthy (objGet patch "author_id") &&
          s.denylist.contains ((objGet patch "author_id").getD "")) = true
      · rw [BlogContract.update_blog_post, if_pos hA, hg] at h
        simp only [reconstruct_eq] at h
        rw [if_pos hd] at h
        exact absurd h (by simp)
      · have hd2 := Bool.eq_false_iff.mpr hd
        by_cases hown : (env.signerAccountId == bp.author_id) = true
        · rw [update_blog_post_eq_ok hA hg hd2 hown] at h
          refine ⟨hA, bp, rfl, hd2, hown, ?_⟩
          simpa using h.symm
        · rw [BlogContract.update_blog_post, if_pos hA, hg] at h
          simp only [reconstruct_eq] at h
          rw [if_neg (by rw [hd2]; simp), BlogPost.update, if_neg hown] at h
          exact absurd h (by simp)
  · rw [BlogContract.update_blog_post, if_neg hA] at h
    exact absurd h (by simp)

theorem contains_setInsert_self (l : List AccountId) (v : AccountId) :
    (setInsert l v).contains v = true := by
  rw [setInsert]
  split_ifs with h
  · exact h
  · simp

theorem setInsert_idem (l : List AccountId) (v : AccountId) :
    setInsert (setInsert l v) v = setInsert l v := by
  rw [setInsert, if_pos (contains_setInsert_self l v)]

theorem mapSet_append {m : List (String × BlogPost)} {k : String} {v : BlogPost}
    (h : ∀ e ∈ m, ¬ e.1 = k) : mapSet m k v = m ++ [(k, v)] := by
  rw [mapSet, if_neg]
  simp only [List.any_eq_true, not_exists, not_and]
  intro e he
  simpa using h e he

/-! Claim theorems. -/

/-- C2: every mutating operation (add_moderators, remove_moderators, register,
create_blog_post, update_blog_post, remove_blog_post) is atomic: whenever the
call is rejected with an error, the resulting registry state equals the
pre-call state exactly. -/
theorem mutating_calls_atomic :
    (∀ env mods s e, (BlogContract.add_moderators env mods s).1 = .error e →
      (BlogContract.add_moderators env mods s).2 = s) ∧
    (∀ env mods s e, (BlogContract.remove_moderators env mods s).1 = .error e →
      (BlogContract.remove_moderators env mods s).2 = s) ∧
    (∀ env s e, (BlogContract.register env s).1 = .error e →
      (BlogContract.register env s).2 = s) ∧
    (∀ env t c th s e, (BlogContract.create_blog_post env t c th s).1 = .error e →
      (BlogContract.create_blog_post env t c th s).2 = s) ∧
    (∀ env bid patch s e, (BlogContract.update_blog_post env bid patch s).1 = .error e →
      (BlogContract.update_blog_post env bid patch s).2 = s) ∧
    (∀ env bid s e, (BlogContract.remove_blog_post env bid s).1 = .error e →
      (BlogContract.remove_blog_post env bid s).2 = s) := by
  refine ⟨?_, ?_, ?_, ?_, ?_, ?_⟩
  · intro env mods s e h
    rw [BlogContract.add_moderators] at h ⊢
    split_ifs at h ⊢ <;> first | rfl | exact Except.noConfusion h
  · intro env mods s e h
    rw [BlogContract.remove_moderators] at h ⊢
    split_ifs at h ⊢ <;> first | rfl | exact Except.noConfusion h
  · intro env s e h
    rw [BlogContract.register] at h ⊢
    split_ifs at h ⊢ <;> first | rfl | exact Except.noConfusion h
  · intro env t c th s e h
    rw [BlogContract.create_blog_post] at h ⊢
    split_ifs at h ⊢ <;> first | rfl | exact Except.noConfusion h
  · intro env bid patch s e h
    by_cases hA : s.authors.contains env.signerAccountId = true
    · cases hg : mapGet s.blog_posts bid with
      | none =>
        rw [BlogContract.update_blog_post, if_pos hA] at h ⊢
        simp only [hg] at h ⊢
      | some bp =>
        rw [BlogContract.update_blog_post, if_pos hA] at h ⊢
        simp only [hg, reconstruct_eq] at h ⊢
        by_cases hd : (truthy (objGet patch "author_id") &&
            s.denylist.contains ((objGet patch "author_id").getD "")) = true
        · rw [if_pos hd] at h ⊢
        · rw [if_neg hd] at h ⊢
          cases hu : BlogPost.update env.signerAccountId bp patch with
          | error e2 => rfl
          | ok bp1 => rw [hu] at h; exact Except.noConfusion h
    · rw [BlogContract.update_blog_post, if_neg hA] at h ⊢
  · intro env bid s e h
    by_cases hA : s.authors.contains env.signerAccountId = true
    · cases hg : mapGet s.blog_posts bid with
      | none =>
        rw [BlogContract.remove_blog_post, if_pos hA] at h ⊢
        simp only [hg] at h ⊢
      | some bp =>
        rw [BlogContract.remove_blog_post, if_pos hA] at h ⊢
        simp only [hg, reconstruct_eq] at h ⊢
        by_cases hown : (env.signerAccountId == bp.author_id) = true
        · rw [if_pos hown] at h; exact Except.noConfusion h
        · rw [if_neg hown] at h ⊢
    · rw [BlogContract.remove_blog_post, if_neg hA] at h ⊢

/-- C2 witness: concrete rejected calls leave the sample registry unchanged. -/
theorem mutating_calls_atomic_witness :
    (BlogContract.add_moderators bobZeroEnv ["x"] sampleState).2 = sampleState ∧
    (BlogContract.remove_moderators bobZeroEnv ["x"] sampleState).2 = sampleState ∧
    (BlogContract.register bobZeroEnv sampleState).2 = sampleState ∧
    (BlogContract.create_blog_post carolEnv "t" "c" "h" sampleState).2 = sampleState ∧
    (BlogContract.update_blog_post carolEnv "p1" [("title", "x")] sampleState).2 = sampleState ∧
    (BlogContract.remove_blog_post carolEnv "p1" sampleState).2 = sampleState :=
  ⟨mutating_calls_atomic.1 bobZeroEnv ["x"] sampleState .oneYocto rfl,
   mutating_calls_atomic.2.1 bobZeroEnv ["x"] sampleState .oneYocto rfl,
   mutating_calls_atomic.2.2.1 bobZeroEnv sampleState .oneYocto rfl,
   mutating_calls_atomic.2.2.2.1 carolEnv "t" "c" "h" sampleState .notAuthor rfl,
   mutating_calls_atomic.2.2.2.2.1 carolEnv "p1" [("title", "x")] sampleState .notAuthor rfl,
   mutating_calls_atomic.2.2.2.2.2 carolEnv "p1" sampleState .notAuthor rfl⟩

/-- C7: for an account with a one-yocto deposit and not on the denylist,
register succeeds and puts the signer in the authors set, and a second
register from the resulting state succeeds and changes nothing. -/
theorem register_idempotent (env : Env) (s : BlogContract)
    (hdep : env.attachedDeposit = 1)
    (hden : s.denylist.contains env.signerAccountId = false) :
    (BlogContract.register env s).1 = .ok () ∧
    (BlogContract.register env s).2.authors.contains env.signerAccountId = true ∧
    BlogContract.register env (BlogContract.register env s).2
      = (.ok (), (BlogContract.register env s).2) := by
  have hdep2 : (env.attachedDeposit == 1) = true := by simp [hdep]
  have hden2 : ¬ s.denylist.contains env.signerAccountId = true := by rw [hden]; simp
  have h1 : BlogContract.register env s
      = (.ok (), { s with authors := setInsert s.authors env.signerAccountId }) := by
    rw [BlogContract.register, if_pos hdep2, if_neg hden2]
  rw [h1]
  refine ⟨rfl, contains_setInsert_self _ _, ?_⟩
  rw [BlogContract.register, if_pos hdep2, if_neg hden2]
  simp [setInsert_idem]

/-- C7 witness: carol registers on the sample registry; registering again is
a no-op. -/
theorem register_idempotent_witness :
    (BlogContract.register carolEnv sampleState).1 = .ok () ∧
    (BlogContract.register carolEnv sampleState).2.authors.contains "carol" = true ∧
    BlogContract.register carolEnv (BlogContract.register carolEnv sampleState).2
      = (.ok (), (BlogContract.register carolEnv sampleState).2) :=
  register_idempotent carolEnv sampleState rfl rfl

/-- C8: get_blog_posts defaults to limit 20 and offset 0, filters the ordered
collection by author first and then slices it, an out-of-range offset yields
the empty list, and on five posts by alice the call with limit 2 and offset 1
returns exactly the second and third posts. -/
theorem get_blog_posts_pagination :
    (∀ (s : BlogContract) (a : Option String),
      BlogContract.get_blog_posts s none none a
        = BlogContract.get_blog_posts s (some 20) (some 0) a) ∧
    (∀ (s : BlogContract) (lim fr : Nat) (a : Option String),
      BlogContract.get_blog_posts s (some lim) (some fr) a =
        (((s.blog_posts.map Prod.snd).filter (BlogContract.authorFilter a)).drop fr).take lim) ∧
    (∀ (s : BlogContract) (lim : Option Nat) (fr : Nat) (a : Option String),
      ((s.blog_posts.map Prod.snd).filter (BlogContract.authorFilter a)).length ≤ fr →
      BlogContract.get_blog_posts s lim (some fr) a = []) ∧
    BlogContract.get_blog_posts fiveState (some 2) (some 1) (some "alice")
      = [alicePost "p2", alicePost "p3"] := by
  refine ⟨fun s a => rfl, fun s lim fr a => rfl, ?_, rfl⟩
  intro s lim fr a h
  rw [BlogContract.get_blog_posts, List.drop_eq_nil_of_le (by simpa using h)]
  simp

/-- C8 witness: an offset past the filtered length yields the empty list. -/
theorem get_blog_posts_pagination_witness :
    BlogContract.get_blog_posts fiveState none (some 7) (some "alice") = [] :=
  get_blog_posts_pagination.2.2.1 fiveState none 7 (some "alice") (by decide)

/-- C10: update_blog_post and remove_blog_post require the signer to be in
the authors set besides owning the post, so the owner of a transferred post
who is not a registered author fails with the not-an-author error. -/
theorem nonauthor_owner_calls_fail (env : Env) (blog_id : String) (patch : Patch)
    (s : BlogContract) (bp : BlogPost)
    (hg : mapGet s.blog_posts blog_id = some bp)
    (hown : bp.author_id = env.signerAccountId)
    (hA : s.authors.contains env.signerAccountId = false) :
    (BlogContract.update_blog_post env blog_id patch s).1 = .error .notAuthor ∧
    (BlogContract.remove_blog_post env blog_id s).1 = .error .notAuthor := by
  have hA2 : ¬ s.authors.contains env.signerAccountId = true := by rw [hA]; simp
  exact ⟨by rw [BlogContract.update_blog_post, if_neg hA2],
    by rw [BlogContract.remove_blog_post, if_neg hA2]⟩

/-- C10 witness: carol owns post p1 after a transfer but is not an author, so
her update and remove calls on p1 are rejected with the not-an-author error. -/
theorem nonauthor_owner_calls_fail_witness :
    (BlogContract.update_blog_post carolEnv "p1" [("title", "x")] transferredState).1
        = .error .notAuthor ∧
    (BlogContract.remove_blog_post carolEnv "p1" transferredState).1
        = .error .notAuthor :=
  nonauthor_owner_calls_fail carolEnv "p1" [("title", "x")] transferredState
    { postP1 with author_id := "carol" } rfl rfl rfl

/-- C9: a patch whose author_id is the empty string is falsy, so the denylist
guard on the transfer target is skipped, yet when all patch keys are
recognized the patch is applied and sets the author_id to the empty string. -/
theorem empty_author_id_skips_denylist (env : Env) (blog_id : String) (patch : Patch)
    (s : BlogContract) (bp : BlogPost)
    (hA : s.authors.contains env.signerAccountId = true)
    (hg : mapGet s.blog_posts blog_id = some bp)
    (hown : (env.signerAccountId == bp.author_id) = true)
    (haid : objGet patch "author_id" = some "")
    (hacc : objKeys patch ≠ [] ∧ ∀ k ∈ objKeys patch, recognizedKeys.contains k = true) :
    (BlogContract.update_blog_post env blog_id patch s).1
        = .ok (applyKeys patch (objKeys patch) bp) ∧
    (applyKeys patch (objKeys patch) bp).author_id = "" := by
  have hd : (truthy (objGet patch "author_id") &&
      s.denylist.contains ((objGet patch "author_id").getD "")) = false := by
    rw [haid]; simp [truthy]
  have hacc2 : patchAccepted patch = true := (patchAccepted_iff patch).mpr hacc
  constructor
  · rw [update_blog_post_eq_ok hA hg hd hown]
    simp [hacc2]
  · have hf := applyKeys_getField_mem patch (objKeys patch) bp "author_id"
      (objKeys_nodup patch) (objGet_some_mem haid) (by decide)
    rw [haid] at hf
    simpa [getField] using hf

/-- C9 witness: with the empty string on the denylist, a patch carrying an
empty author_id plus a title still succeeds and stores an empty author_id. -/
theorem empty_author_id_skips_denylist_witness :
    nullDenyState.denylist.contains "" = true ∧
    (BlogContract.update_blog_post aliceEnv "p1"
        [("author_id", ""), ("title", "x")] nullDenyState).1
      = .ok (applyKeys [("author_id", ""), ("title", "x")]
          (objKeys [("author_id", ""), ("title", "x")]) postP1) ∧
    (applyKeys [("author_id", ""), ("title", "x")]
        (objKeys [("author_id", ""), ("title", "x")]) postP1).author_id = "" := by
  have h := empty_author_id_skips_denylist aliceEnv "p1"
    [("author_id", ""), ("title", "x")] nullDenyState postP1 rfl rfl rfl rfl (by decide)
  exact ⟨rfl, h.1, h.2⟩

/-- C1 counterexample: the patch transferring authorship to denylisted bob is
non-empty and every key is recognized, yet the call neither applies the patch
nor succeeds: it is rejected with the denylist error. -/
theorem update_recognized_patch_rejected_counterexample :
    (objKeys [("author_id", "bob")] ≠ [] ∧
      ∀ k ∈ objKeys [("author_id", "bob")], recognizedKeys.contains k = true) ∧
    BlogContract.update_blog_post aliceEnv "p1" [("author_id", "bob")] sampleState
      = (.error .denylisted, sampleState) := ⟨by decide, rfl⟩

/-- C1 (amended): provided the call passes its guards (signer is a registered
author owning the existing post, and a truthy author_id in the patch is not
denylisted), the patch is applied all-or-nothing: if it is non-empty and every
key is recognized, the call succeeds with every listed field applied;
otherwise the call still succeeds returning the unchanged post. -/
theorem update_blog_post_all_or_nothing (env : Env) (blog_id : String) (patch : Patch)
    (s : BlogContract) (bp : BlogPost)
    (hA : s.authors.contains env.signerAccountId = true)
    (hg : mapGet s.blog_posts blog_id = some bp)
    (hd : (truthy (objGet patch "author_id") &&
      s.denylist.contains ((objGet patch "author_id").getD "")) = false)
    (hown : (env.signerAccountId == bp.author_id) = true) :
    ((objKeys patch ≠ [] ∧ ∀ k ∈ objKeys patch, recognizedKeys.contains k = true) →
      (BlogContract.update_blog_post env blog_id patch s).1
          = .ok (applyKeys patch (objKeys patch) bp) ∧
      ∀ k ∈ objKeys patch,
        getField (applyKeys patch (objKeys patch) bp) k = (objGet patch k).getD "") ∧
    (¬ (objKeys patch ≠ [] ∧ ∀ k ∈ objKeys patch, recognizedKeys.contains k = true) →
      (BlogContract.update_blog_post env blog_id patch s).1 = .ok bp) := by
  have hmain := update_blog_post_eq_ok hA hg hd hown
  constructor
  · intro hacc
    have hacc2 : patchAccepted patch = true := (patchAccepted_iff patch).mpr hacc
    constructor
    · rw [hmain]; simp [hacc2]
    · intro k hk
      exact applyKeys_getField_mem patch _ bp k (objKeys_nodup patch) hk (hacc.2 k hk)
  · intro hacc
    have hacc2 : patchAccepted patch = false :=
      Bool.eq_false_iff.mpr (fun h => hacc ((patchAccepted_iff patch).mp h))
    rw [hmain]; simp [hacc2]

/-- C1 witness: a title-only patch is applied with the listed field set, and
a patch with an unrecognized key succeeds returning the unchanged post. -/
theorem update_blog_post_all_or_nothing_witness :
    (BlogContract.update_blog_post aliceEnv "p1" [("title", "new")] sampleState).1
        = .ok (applyKeys [("title", "new")] (objKeys [("title", "new")]) postP1) ∧
    getField (applyKeys [("title", "new")] (objKeys [("title", "new")]) postP1) "title"
        = (objGet [("title", "new")] "title").getD "" ∧
    (BlogContract.update_blog_post aliceEnv "p1" [("junk", "x")] sampleState).1
        = .ok postP1 := by
  have h1 := update_blog_post_all_or_nothing aliceEnv "p1" [("title", "new")]
    sampleState postP1 rfl rfl rfl rfl
  have h2 := update_blog_post_all_or_nothing aliceEnv "p1" [("junk", "x")]
    sampleState postP1 rfl rfl rfl rfl
  exact ⟨(h1.1 (by decide)).1, (h1.1 (by decide)).2 "title" (by decide),
    h2.2 (by decide)⟩

/-- C3 counterexample: alice transfers her post to carol, who is neither an
author nor denylisted; the call succeeds even though carol is not registered
in the authors set. -/
theorem author_transfer_unregistered_target_counterexample :
    BlogContract.update_blog_post aliceEnv "p1" [("author_id", "carol")] sampleState
      = (.ok { postP1 with author_id := "carol" },
         { sampleState with blog_posts := [("p1", { postP1 with author_id := "carol" })] }) ∧
    sampleState.authors.contains "carol" = false := ⟨rfl, rfl⟩

/-- C3 (amended): for every successful update whose patch carries a truthy
author_id, the transfer target is absent from the denylist at transfer time;
membership of the target in the authors set is not required. -/
theorem author_transfer_target_not_denylisted (env : Env) (blog_id : String)
    (patch : Patch) (s : BlogContract) (p1 : BlogPost)
    (hok : (BlogContract.update_blog_post env blog_id patch s).1 = .ok p1)
    (ht : truthy (objGet patch "author_id") = true) :
    s.denylist.contains ((objGet patch "author_id").getD "") = false := by
  obtain ⟨-, bp, -, hd, -, -⟩ := update_blog_post_ok_inv hok
  rw [ht] at hd
  simpa using hd

/-- C3 witness: the successful transfer of p1 to carol has a target absent
from the denylist. -/
theorem author_transfer_target_not_denylisted_witness :
    sampleState.denylist.contains
      ((objGet [("author_id", "carol")] "author_id").getD "") = false :=
  author_transfer_target_not_denylisted aliceEnv "p1" [("author_id", "carol")]
    sampleState { postP1 with author_id := "carol" } rfl rfl

/-- C4 counterexample: two creations whose environments supply the same random
seed produce posts with the same id, and the second creation overwrites the
first post instead of inserting a new one. -/
theorem create_blog_post_id_reuse_counterexample :
    (BlogContract.create_blog_post aliceEnv "t1" "c1" "h1" emptyState).1
        = .ok (BlogPost.make aliceEnv "t1" "c1" "h1") ∧
    (BlogContract.create_blog_post aliceEnv "t2" "c2" "h2"
        (BlogContract.create_blog_post aliceEnv "t1" "c1" "h1" emptyState).2).1
        = .ok (BlogPost.make aliceEnv "t2" "c2" "h2") ∧
    (BlogPost.make aliceEnv "t2" "c2" "h2").id = (BlogPost.make aliceEnv "t1" "c1" "h1").id ∧
    (BlogContract.create_blog_post aliceEnv "t2" "c2" "h2"
        (BlogContract.create_blog_post aliceEnv "t1" "c1" "h1" emptyState).2).2.blog_posts
        = [("seed1", BlogPost.make aliceEnv "t2" "c2" "h2")] :=
  ⟨rfl, rfl, rfl, rfl⟩

/-- C4 (amended): the created post id is exactly the environment random seed,
so when the seed differs from every stored post id the post is appended fresh
and its id differs from the id of every previously stored post; uniqueness is
conditional on the host never repeating a seed. -/
theorem create_blog_post_fresh_seed_unique (env : Env)
    (title cid tcid : String) (s : BlogContract)
    (hA : s.authors.contains env.signerAccountId = true)
    (hfresh : ∀ e ∈ s.blog_posts, ¬ e.1 = env.randomSeed) :
    (BlogContract.create_blog_post env title cid tcid s).1
        = .ok (BlogPost.make env title cid tcid) ∧
    (BlogPost.make env title cid tcid).id = env.randomSeed ∧
    (BlogContract.create_blog_post env title cid tcid s).2.blog_posts
        = s.blog_posts ++ [(env.randomSeed, BlogPost.make env title cid tcid)] ∧
    ∀ e ∈ s.blog_posts, ¬ e.1 = (BlogPost.make env title cid tcid).id := by
  refine ⟨by rw [BlogContract.create_blog_post, if_pos hA], rfl, ?_, hfresh⟩
  rw [BlogContract.create_blog_post, if_pos hA]
  exact mapSet_append hfresh

/-- C4 witness: creating a post with a fresh seed on the sample registry
appends it with the seed as id, distinct from the stored post id. -/
theorem create_blog_post_fresh_seed_unique_witness :
    (BlogContract.create_blog_post aliceEnv "t1" "c1" "h1" sampleState).1
        = .ok (BlogPost.make aliceEnv "t1" "c1" "h1") ∧
    (BlogPost.make aliceEnv "t1" "c1" "h1").id = "seed1" ∧
    (BlogContract.create_blog_post aliceEnv "t1" "c1" "h1" sampleState).2.blog_posts
        = sampleState.blog_posts ++ [("seed1", BlogPost.make aliceEnv "t1" "c1" "h1")] ∧
    ¬ "p1" = (BlogPost.make aliceEnv "t1" "c1" "h1").id := by
  have h := create_blog_post_fresh_seed_unique aliceEnv "t1" "c1" "h1" sampleState
    rfl (by decide)
  exact ⟨h.1, h.2.1, h.2.2.1, h.2.2.2 ("p1", postP1) (by decide)⟩

/-- C5 counterexample: denylisted bob calling register without the one-yocto
deposit is rejected with the deposit error, not the denylist error. -/
theorem register_denylisted_wrong_error_counterexample :
    sampleState.denylist.contains bobZeroEnv.signerAccountId = true ∧
    BlogContract.register bobZeroEnv sampleState = (.error .oneYocto, sampleState) ∧
    CallError.oneYocto ≠ CallError.denylisted := ⟨rfl, rfl, by decide⟩

/-- C5 (amended): for a denylisted account d, with the one-yocto deposit
attached and the preceding guards passing, register by d, add_moderators with
d among the targets, and update_blog_post transferring authorship to a
non-empty d are all rejected with the denylist error and leave the whole
state unchanged. -/
theorem denylisted_accounts_rejected (env : Env) (s : BlogContract) (d : AccountId)
    (hd : s.denylist.contains d = true)
    (hdep : env.attachedDeposit = 1) :
    (env.signerAccountId = d → BlogContract.register env s = (.error .denylisted, s)) ∧
    (∀ mods, d ∈ mods →
      (env.signerAccountId == env.currentAccountId ||
        s.moderators.contains env.signerAccountId) = true →
      BlogContract.add_moderators env mods s = (.error .denylisted, s)) ∧
    (∀ blog_id patch, s.authors.contains env.signerAccountId = true →
      (∃ bp, mapGet s.blog_posts blog_id = some bp) →
      objGet patch "author_id" = some d → ¬ d = "" →
      BlogContract.update_blog_post env blog_id patch s = (.error .denylisted, s)) := by
  have hdep2 : (env.attachedDeposit == 1) = true := by simp [hdep]
  refine ⟨?_, ?_, ?_⟩
  · intro hs
    rw [BlogContract.register, if_pos hdep2, if_pos (by rw [hs]; exact hd)]
  · intro mods hmem hperm
    rw [BlogContract.add_moderators, if_pos hdep2]
    by_cases hself : s.denylist.contains env.signerAccountId = true
    · rw [if_pos hself]
    · rw [if_neg hself, if_pos hperm,
        if_pos (List.any_eq_true.mpr ⟨d, hmem, hd⟩)]
  · intro blog_id patch hA hbp hobj hne
    obtain ⟨bp, hg⟩ := hbp
    rw [BlogContract.update_blog_post, if_pos hA, hg]
    simp only [reconstruct_eq]
    have hdm : d ∈ s.denylist := by simpa using hd
    rw [if_pos (by rw [hobj]; simp [truthy, hne, hdm])]

/-- C5 witness: on a registry where bob is denylisted yet moderator, author
and post owner, all three denylisted-target calls are rejected with the
denylist error and the state is unchanged. -/
theorem denylisted_accounts_rejected_witness :
    BlogContract.register bobOneEnv bobState = (.error .denylisted, bobState) ∧
    BlogContract.add_moderators bobOneEnv ["bob"] bobState
        = (.error .denylisted, bobState) ∧
    BlogContract.update_blog_post bobOneEnv "p1" [("author_id", "bob")] bobState
        = (.error .denylisted, bobState) := by
  have h := denylisted_accounts_rejected bobOneEnv bobState "bob" rfl rfl
  exact ⟨h.1 rfl, h.2.1 ["bob"] (by decide) rfl,
    h.2.2 "p1" [("author_id", "bob")] rfl ⟨_, rfl⟩ rfl (by decide)⟩

/-- C6: a successful update preserves id, created_at and last_updated_at,
changes only fields named in the patch, and a title-only patch yields the
stored post with just the title replaced. -/
theorem update_blog_post_frame (env : Env) (blog_id : String) (patch : Patch)
    (s : BlogContract) (bp p1 : BlogPost)
    (hg : mapGet s.blog_posts blog_id = some bp)
    (hok : (BlogContract.update_blog_post env blog_id patch s).1 = .ok p1) :
    p1.id = bp.id ∧ p1.created_at = bp.created_at ∧
    p1.last_updated_at = bp.last_updated_at ∧
    (∀ k, ¬ k ∈ objKeys patch → getField p1 k = getField bp k) ∧
    (∀ t, patch = [("title", t)] → p1 = { bp with title := t }) := by
  obtain ⟨-, bp2, hg2, -, -, hp⟩ := update_blog_post_ok_inv hok
  rw [hg] at hg2
  obtain rfl : bp = bp2 := Option.some.inj hg2
  by_cases hacc : patchAccepted patch = true
  · rw [if_pos hacc] at hp
    subst hp
    refine ⟨applyKeys_id _ _ _, applyKeys_created_at _ _ _,
      applyKeys_last_updated_at _ _ _,
      fun k hk => applyKeys_getField_not_mem _ _ _ _ hk, ?_⟩
    intro t ht
    subst ht
    rfl
  · rw [if_neg hacc] at hp
    subst hp
    refine ⟨rfl, rfl, rfl, fun k hk => rfl, ?_⟩
    intro t ht
    exact absurd (by rw [ht]; rfl : patchAccepted patch = true) hacc

/-- C6 witness: the title-only update of p1 by alice changes only the title
field of the stored post. -/
theorem update_blog_post_frame_witness :
    ({ postP1 with title := "new" } : BlogPost).id = postP1.id ∧
    ({ postP1 with title := "new" } : BlogPost).created_at = postP1.created_at ∧
    ({ postP1 with title := "new" } : BlogPost).last_updated_at = postP1.last_updated_at ∧
    getField { postP1 with title := "new" } "ipfs_cid" = getField postP1 "ipfs_cid" ∧
    ({ postP1 with title := "new" } : BlogPost) = { postP1 with title := "new" } := by
  have h := update_blog_post_frame aliceEnv "p1" [("title", "new")] sampleState postP1
    { postP1 with title := "new" } rfl rfl
  exact ⟨h.1, h.2.1, h.2.2.1, h.2.2.2.1 "ipfs_cid" (by decide), h.2.2.2.2 "new" rfl⟩

end BlogsPlatform
